import Mathlib

/-!
# Verification of the rag-workflow-tools automation scripts

This file shallowly embeds the five Python scripts of the repository and
proves properties of the embedding:

* `src/instagram_automation/post_to_instagram.py` — the Reel publication
  workflow (signed-URL issuance, container creation, a polling loop with
  two terminal outcomes, and publication).
* `src/gcs_utilities/googleCloud_upload.py` — GCS upload guarded by the
  `if_generation_match=0` precondition.
* `src/gcs_utilities/GoogleDrive_Local_mirror.py` and
  `src/gcs_utilities/Local_GoogleDrive_mirror.py` — one-way mirrors that
  skip files already present at the destination.
* `src/video_processing/create_InstagramReel_addMusic.py` — the
  `natural_sort_key` filename ordering.

HTTP traffic is embedded by passing in an environment of responses and
recording every request the scripts issue, in order, together with every
line they print and the way the process ends.
-/

namespace RagWorkflow

namespace Instagram

/-- The pinned Graph API version from the script header. -/
def API_VERSION : String := "v19.0"

/-- The base URL the script builds from the API version. -/
def BASE_URL : String := "https://graph.facebook.com/" ++ API_VERSION

/-- One HTTP response as the script observes it: the status code, the
status-line reason phrase, `resp.text` (the raw body), and the two JSON
fields the script reads (`resp.json()["id"]` and
`resp.json().get("status_code")`), each `none` when absent. -/
structure HttpResponse where
  status : Nat
  reason : String
  body : String
  jsonId : Option String
  jsonStatusCode : Option String
deriving DecidableEq, Repr

/-- `requests.Response.raise_for_status`: returns the message of the
`HTTPError` it raises for a 4xx or 5xx status, `none` otherwise.  The
message contains the status code, the reason phrase and the URL — it does
not contain the response body. -/
def raiseForStatusMsg (url : String) (r : HttpResponse) : Option String :=
  if 400 ≤ r.status ∧ r.status < 500 then
    some (toString r.status ++ " Client Error: " ++ r.reason ++ " for url: " ++ url)
  else if 500 ≤ r.status ∧ r.status < 600 then
    some (toString r.status ++ " Server Error: " ++ r.reason ++ " for url: " ++ url)
  else
    none

/-- An HTTP request issued by the workflow, identified by method and URL. -/
inductive HttpCall where
  | post (url : String)
  | get (url : String)
  | head (url : String)
deriving DecidableEq, Repr

/-- Python `str(x)` on the value read by `.get("status_code")`:
a missing field is the value `None` and prints as `"None"`. -/
def pyStr : Option String → String
  | none => "None"
  | some s => s

/-- How the polling loop inside `create_media_container` ends. -/
inductive PollResult where
  | finished
  | httpFail (msg : String)
  | procError
  | exhausted
deriving DecidableEq, Repr

/-- Everything one run of the polling loop does: the status-query requests
it makes, the `time.sleep` durations, the printed lines, and how it ends. -/
structure PollLog where
  calls : List HttpCall
  sleeps : List Nat
  output : List String
  result : PollResult
deriving DecidableEq, Repr

/-- The `while True` polling loop of `create_media_container`, run against
a list of successive status responses.  Each iteration issues
`GET BASE_URL/{container_id}` (with `fields=status_code` and the access
token as query parameters), calls `raise_for_status`, reads
`status_code`, returns on `"FINISHED"`, exits with status 1 on
`"ERROR"` (printing the full response text), and otherwise sleeps 5
seconds and loops.  Exhausting the supplied responses leaves the loop
still running (`PollResult.exhausted`). -/
def pollLoop (cid : String) : List HttpResponse → PollLog
  | [] => ⟨[], [], [], .exhausted⟩
  | r :: rest =>
    let url := BASE_URL ++ "/" ++ cid
    match raiseForStatusMsg url r with
    | some msg => ⟨[.get url], [], [msg], .httpFail msg⟩
    | none =>
      let line := "   Processing status: " ++ pyStr r.jsonStatusCode
      if r.jsonStatusCode = some "FINISHED" then
        ⟨[.get url], [], [line, "✅ Video processing complete."], .finished⟩
      else if r.jsonStatusCode = some "ERROR" then
        ⟨[.get url], [],
         [line, "❌ Video processing failed. Full error response: " ++ r.body], .procError⟩
      else
        let l := pollLoop cid rest
        ⟨.get url :: l.calls, 5 :: l.sleeps, line :: l.output, l.result⟩

/-- How `create_media_container` ends: a container id on success, an
uncaught exception, a `sys.exit(1)`, or still polling (the environment ran
out of responses). -/
inductive CreateResult where
  | ok (cid : String)
  | exception (msg : String)
  | exitFailure
  | stillPolling
deriving DecidableEq, Repr

/-- Everything `create_media_container` does. -/
structure CreateLog where
  calls : List HttpCall
  sleeps : List Nat
  output : List String
  result : CreateResult
deriving DecidableEq, Repr

/-- URL of the container-creation POST. -/
def create_media_container_url (igAccountId : String) : String :=
  BASE_URL ++ "/" ++ igAccountId ++ "/media"

/-- URL of the publish POST. -/
def publish_media_url (igAccountId : String) : String :=
  BASE_URL ++ "/" ++ igAccountId ++ "/media_publish"

/-- `create_media_container(ig_account_id, access_token, video_url, caption)`:
POSTs to `BASE_URL/{ig_account_id}/media` (media type, video URL, caption
and token travel as query parameters), calls `raise_for_status`, reads the
container id from the JSON (`resp.json()["id"]` raises a `KeyError` when
absent), prints it, then enters the polling loop. -/
def create_media_container (igAccountId : String) (resp : HttpResponse)
    (statusResps : List HttpResponse) : CreateLog :=
  let url := create_media_container_url igAccountId
  match raiseForStatusMsg url resp with
  | some msg => ⟨[.post url], [], ["→ Creating media container…", msg], .exception msg⟩
  | none =>
    match resp.jsonId with
    | none =>
      ⟨[.post url], [], ["→ Creating media container…", "KeyError: id"], .exception "KeyError: id"⟩
    | some cid =>
      let p := pollLoop cid statusResps
      ⟨.post url :: p.calls, p.sleeps,
       "→ Creating media container…" :: ("✅ Container ID: " ++ cid) :: p.output,
       match p.result with
       | .finished => .ok cid
       | .httpFail msg => .exception msg
       | .procError => .exitFailure
       | .exhausted => .stillPolling⟩

/-- How the whole process ends. -/
inductive Outcome where
  | published (mediaId : String)
  | exitFailure
  | exception (msg : String)
  | stillPolling
deriving DecidableEq, Repr

/-- Everything one process run does. -/
structure Run where
  calls : List HttpCall
  sleeps : List Nat
  output : List String
  outcome : Outcome
deriving DecidableEq, Repr

/-- `publish_media(ig_account_id, access_token, creation_id)`: POSTs to
`BASE_URL/{ig_account_id}/media_publish` with the creation id and token as
query parameters, calls `raise_for_status`, and returns
`resp.json()["id"]`. -/
def publish_media (igAccountId _creationId : String) (resp : HttpResponse) : Run :=
  let url := publish_media_url igAccountId
  match raiseForStatusMsg url resp with
  | some msg => ⟨[.post url], [], ["→ Publishing media container…", msg], .exception msg⟩
  | none =>
    match resp.jsonId with
    | none =>
      ⟨[.post url], [], ["→ Publishing media container…", "KeyError: id"],
       .exception "KeyError: id"⟩
    | some mid =>
      ⟨[.post url], [], ["→ Publishing media container…",
        "✅ Successfully posted! Media ID: " ++ mid], .published mid⟩

/-- The environment a run is executed against: the outcome of the local
signed-URL generation (`some e` when the library raises, making the
script print the error and `sys.exit(1)`), the response to the
container-creation POST, the successive status responses, the response to
the publish POST — and, for stating reachability properties, the status a
`HEAD` request against the signed URL would return (the script never
issues such a request). -/
structure Env where
  headProbeStatus : Nat
  signedUrlError : Option String
  createResp : HttpResponse
  statusResps : List HttpResponse
  publishResp : HttpResponse
deriving DecidableEq, Repr

/-- Default of the `expiration_minutes` parameter of
`generate_signed_url`; the `__main__` block does not pass the parameter. -/
def DEFAULT_EXPIRATION_MINUTES : Nat := 15

/-- The two lines `generate_signed_url` prints on success. -/
def generate_signed_url_output (bucket object : String) (expirationMinutes : Nat) :
    List String :=
  ["→ Generating signed URL for gs://" ++ bucket ++ "/" ++ object ++ "...",
   "✅ Signed URL created. Valid for " ++ toString expirationMinutes ++ " minutes."]

/-- The `__main__` block: generate the signed URL (exiting with status 1
if that raises), then `create_media_container`, then `publish_media`.
There is no step between signed-URL generation and the container-creation
POST: in particular no HEAD request is made against the signed URL. -/
def mainWorkflow (igAccountId bucket object : String) (env : Env) : Run :=
  match env.signedUrlError with
  | some e =>
    ⟨[], [],
     [("→ Generating signed URL for gs://" ++ bucket ++ "/" ++ object ++ "..."),
      ("❌ Failed to generate signed URL: " ++ e)], .exitFailure⟩
  | none =>
    let urlOut := generate_signed_url_output bucket object DEFAULT_EXPIRATION_MINUTES
    let c := create_media_container igAccountId env.createResp env.statusResps
    match c.result with
    | .ok cid =>
      let pub := publish_media igAccountId cid env.publishResp
      ⟨c.calls ++ pub.calls, c.sleeps ++ pub.sleeps, urlOut ++ c.output ++ pub.output,
       pub.outcome⟩
    | .exception msg => ⟨c.calls, c.sleeps, urlOut ++ c.output, .exception msg⟩
    | .exitFailure => ⟨c.calls, c.sleeps, urlOut ++ c.output, .exitFailure⟩
    | .stillPolling => ⟨c.calls, c.sleeps, urlOut ++ c.output, .stillPolling⟩

/-- Is this call a HEAD request? -/
def isHeadCall : HttpCall → Bool
  | .head _ => true
  | _ => false

/-- Is this call a GET request (the only GETs the workflow makes are the
status queries of the polling loop)? -/
def isGetCall : HttpCall → Bool
  | .get _ => true
  | _ => false

/-- Number of HEAD probes a run performed. -/
def Run.headProbes (r : Run) : Nat := r.calls.countP (fun c => isHeadCall c)

/-- Number of status queries a run performed. -/
def Run.statusQueries (r : Run) : Nat := r.calls.countP (fun c => isGetCall c)

/-- Number of container-creation calls a run performed. -/
def Run.createCalls (igAccountId : String) (r : Run) : Nat :=
  r.calls.countP (fun c => c == .post (create_media_container_url igAccountId))

/-- Number of publish calls a run performed. -/
def Run.publishCalls (igAccountId : String) (r : Run) : Nat :=
  r.calls.countP (fun c => c == .post (publish_media_url igAccountId))

/-- The request `generate_signed_url` makes of the storage library:
`blob.generate_signed_url(version="v4",
expiration=timedelta(minutes=expiration_minutes), method="GET")` on the
blob `object` of `bucket`. -/
structure SignedUrlRequest where
  bucket : String
  objectName : String
  version : String
  expirationMinutes : Nat
  method : String
deriving DecidableEq, Repr

/-- `generate_signed_url(service_account_key_file, bucket_name,
object_name, expiration_minutes=15)`: the signing request it issues.
Callers that omit `expiration_minutes` get
`DEFAULT_EXPIRATION_MINUTES`. -/
def generate_signed_url (bucket object : String) (expiration_minutes : Nat) :
    SignedUrlRequest :=
  ⟨bucket, object, "v4", expiration_minutes, "GET"⟩

/-- V4 signing semantics of the storage library: the URL issued at
`issuedAt` (seconds) for a request with expiration
`timedelta(minutes=m)` expires at `issuedAt + m * 60`. -/
def SignedUrlRequest.expiresAt (req : SignedUrlRequest) (issuedAt : Nat) : Nat :=
  issuedAt + req.expirationMinutes * 60

/-- A status response that keeps the loop going: HTTP success and a
status code that is neither terminal value. -/
def NonTerminal (r : HttpResponse) : Prop :=
  r.status < 400 ∧ r.jsonStatusCode ≠ some "FINISHED" ∧ r.jsonStatusCode ≠ some "ERROR"

instance (r : HttpResponse) : Decidable (NonTerminal r) := by
  unfold NonTerminal; infer_instance

/-- Is `needle` a contiguous substring of `hay`? -/
def containsStr (needle hay : String) : Bool :=
  hay.toList.tails.any (fun t => needle.toList.isPrefixOf t)

end Instagram

namespace GcsUpload

/-- The upload request `googleCloud_upload.py` builds:
`blob.upload_from_filename(str(local_file), if_generation_match=0)` on
the blob `destination_blob_name` of `bucket_name`. -/
structure UploadRequest where
  bucket : String
  destinationBlobName : String
  ifGenerationMatch : Option Nat
deriving DecidableEq, Repr

/-- The request `main` issues for the configured bucket and object: the
script always passes `if_generation_match=0`. -/
def uploadRequest (bucket objectName : String) : UploadRequest :=
  ⟨bucket, objectName, some 0⟩

/-- A bucket is a map from object name to content (`none` = absent). -/
def BucketState := String → Option String

/-- GCS precondition semantics: an upload with `if_generation_match=0`
succeeds only if no live object with that name exists, failing with
`PreconditionFailed` (and leaving the bucket unchanged) otherwise; with
no precondition the upload (over)writes unconditionally. -/
def applyUpload (state : BucketState) (req : UploadRequest) (content : String) :
    Except Unit BucketState :=
  match req.ifGenerationMatch with
  | some 0 =>
    if (state req.destinationBlobName).isSome then .error ()
    else .ok (fun n => if n = req.destinationBlobName then some content else state n)
  | _ => .ok (fun n => if n = req.destinationBlobName then some content else state n)

/-- Step 3 of `main` (the upload with overwrite protection): returns the
final bucket state, the process exit code, and whether the
`PreconditionFailed` handler ran.  On `PreconditionFailed` the script
prints the `UPLOAD FAILED` diagnostic and calls `sys.exit(1)`. -/
def uploadMain (bucket objectName content : String) (state : BucketState) :
    BucketState × Nat × Bool :=
  match applyUpload state (uploadRequest bucket objectName) content with
  | .error _ => (state, 1, true)
  | .ok s2 => (s2, 0, false)

end GcsUpload

namespace Mirror

/-- A file in the Drive folder listing (`files(id,name)`). -/
structure DriveFile where
  id : String
  name : String
deriving DecidableEq, Repr

/-- The local destination directory: a map from file name to content. -/
def DirState := String → Option String

/-- The download loop of `GoogleDrive_Local_mirror.main`, after `existing`
has been computed once from the local target directory: for each listed
Drive file, skip it when its name is in `existing`, otherwise download
its media into the destination.  Returns the final directory state and
the names downloaded, in order.  `driveContent` gives the media bytes by
file id. -/
def downloadLoop (driveContent : String → String) (existing : String → Bool) :
    List DriveFile → DirState → DirState × List String
  | [], dest => (dest, [])
  | f :: rest, dest =>
    if existing f.name then downloadLoop driveContent existing rest dest
    else
      let dest2 : DirState := fun n => if n = f.name then some (driveContent f.id) else dest n
      let r := downloadLoop driveContent existing rest dest2
      (r.1, f.name :: r.2)

/-- Steps of `GoogleDrive_Local_mirror.main` from line 69 on:
`existing = {p.name for p in local_target.iterdir() if p.is_file()}`,
then the download loop over the Drive listing. -/
def mirrorDownload (driveContent : String → String) (files : List DriveFile)
    (dest : DirState) : DirState × List String :=
  downloadLoop driveContent (fun n => (dest n).isSome) files dest

/-- An entry of the local source directory for the upload mirror:
`iterdir()` yields both files and subdirectories, hence the `isFile`
flag checked by the script. -/
structure LocalFile where
  name : String
  isFile : Bool
  content : String
deriving DecidableEq, Repr

/-- The loop of `upload_new_files` after `existing` (the set of names in
the Drive folder listing) has been computed: each local entry that is a
file and whose name is not in `existing` is uploaded with
`drive.files().create`, which adds a new file to the folder.  Returns
the Drive folder contents (name, content) after the run and the names
uploaded, in order. -/
def uploadLoop (existing : String → Bool) :
    List LocalFile → List (String × String) → List (String × String) × List String
  | [], folder => (folder, [])
  | f :: rest, folder =>
    if f.isFile && !(existing f.name) then
      let r := uploadLoop existing rest (folder ++ [(f.name, f.content)])
      (r.1, f.name :: r.2)
    else uploadLoop existing rest folder

/-- `upload_new_files(local_folder, drive_folder_id)`: list the names
already in the Drive folder, then upload the local files absent from
that listing. -/
def upload_new_files (locals : List LocalFile) (folder : List (String × String)) :
    List (String × String) × List String :=
  uploadLoop (fun n => (folder.map Prod.fst).contains n) locals folder

end Mirror

namespace NaturalSort

/-- `re.split('([0-9]+)', s)` on the character list of `s`: alternating
non-digit and maximal nonempty digit pieces; the list starts and ends
with a (possibly empty) non-digit piece whenever a digit run occurs, and
is the single piece `[s]` otherwise. -/
def splitChars : List Char → List (List Char)
  | [] => [[]]
  | c :: cs =>
    if c.isDigit then
      match splitChars cs with
      | [] :: d :: rest => [] :: (c :: d) :: rest
      | r => [] :: [c] :: r
    else
      match splitChars cs with
      | nd :: rest => (c :: nd) :: rest
      | [] => [[c]]

/-- One comparison-key element as Python builds it:
`int(text) if text.isdigit() else text.lower()`. -/
inductive Piece where
  | num (n : Nat) : Piece
  | str (s : List Char) : Piece
deriving DecidableEq, Repr

/-- Python `int()` of an all-digit string. -/
def digitsVal (cs : List Char) : Nat :=
  cs.foldl (fun acc c => acc * 10 + (c.toNat - 48)) 0

/-- `int(text) if text.isdigit() else text.lower()` for one piece.
(`text.isdigit()` is true exactly for nonempty all-digit pieces here,
since the digit pieces produced by the split are ASCII; `str.lower` on
ASCII is `Char.toLower` — uppercase A–Z map to a–z, everything else is
unchanged.  Full-Unicode case folding and exotic Unicode digits are not
modelled.) -/
def pieceOf (cs : List Char) : Piece :=
  if cs ≠ [] ∧ cs.all Char.isDigit then .num (digitsVal cs) else .str (cs.map Char.toLower)

/-- `natural_sort_key(s)` from
`src/video_processing/create_InstagramReel_addMusic.py`:
`[int(text) if text.isdigit() else text.lower() for text in re.split('([0-9]+)', s)]`. -/
def natural_sort_key (s : String) : List Piece :=
  (splitChars s.toList).map pieceOf

/-- Python string `<`: lexicographic by code point, a strict prefix is
smaller. -/
def strLt : List Char → List Char → Bool
  | _, [] => false
  | [], _ :: _ => true
  | a :: as, b :: bs => if a = b then strLt as bs else decide (a.toNat < b.toNat)

/-- Python `<` on key elements.  Comparing an `int` with a `str` raises
`TypeError`; between two keys produced by `natural_sort_key` this never
happens (pieces at equal positions have equal parity, hence equal type),
so the mixed cases carry the junk value `false`. -/
def pieceLt : Piece → Piece → Bool
  | .num a, .num b => decide (a < b)
  | .str a, .str b => strLt a b
  | _, _ => false

/-- Python list `<`: lexicographic, a strict prefix is smaller.  This is
the order `sorted(..., key=natural_sort_key)` sorts by. -/
def keyLt : List Piece → List Piece → Bool
  | _, [] => false
  | [], _ :: _ => true
  | a :: as, b :: bs => if a = b then keyLt as bs else pieceLt a b

end NaturalSort

/-! ## Helper lemmas -/

/-- Counting in a replicated list. -/
theorem countP_replicate {α : Type} (p : α → Bool) (n : Nat) (a : α) :
    (List.replicate n a).countP p = if p a then n else 0 := by
  induction n with
  | zero => simp
  | succ n ih =>
    rw [List.replicate_succ, List.countP_cons, ih]
    by_cases h : p a <;> simp [h]

namespace Instagram

/-- A status below 400 makes `raise_for_status` a no-op. -/
theorem raiseForStatusMsg_eq_none (url : String) {r : HttpResponse} (h : r.status < 400) :
    raiseForStatusMsg url r = none := by
  unfold raiseForStatusMsg
  rw [if_neg (by omega), if_neg (by omega)]

/-- One non-terminal observation: query, print, sleep 5, loop. -/
theorem pollLoop_cons_nonterminal (cid : String) {r : HttpResponse} (rest : List HttpResponse)
    (h : NonTerminal r) :
    pollLoop cid (r :: rest) =
      ⟨.get (BASE_URL ++ "/" ++ cid) :: (pollLoop cid rest).calls,
       5 :: (pollLoop cid rest).sleeps,
       ("   Processing status: " ++ pyStr r.jsonStatusCode) :: (pollLoop cid rest).output,
       (pollLoop cid rest).result⟩ := by
  obtain ⟨h1, h2, h3⟩ := h
  simp only [pollLoop, raiseForStatusMsg_eq_none _ h1, if_neg h2, if_neg h3]

/-- First observation of `"FINISHED"`: one query, return. -/
theorem pollLoop_cons_finished (cid : String) {r : HttpResponse} (rest : List HttpResponse)
    (h1 : r.status < 400) (h2 : r.jsonStatusCode = some "FINISHED") :
    pollLoop cid (r :: rest) =
      ⟨[.get (BASE_URL ++ "/" ++ cid)], [],
       ["   Processing status: " ++ pyStr r.jsonStatusCode, "✅ Video processing complete."],
       .finished⟩ := by
  simp only [pollLoop, raiseForStatusMsg_eq_none _ h1, if_pos h2]

/-- First observation of `"ERROR"`: one query, print the full response
text, exit 1. -/
theorem pollLoop_cons_error (cid : String) {r : HttpResponse} (rest : List HttpResponse)
    (h1 : r.status < 400) (h2 : r.jsonStatusCode = some "ERROR") :
    pollLoop cid (r :: rest) =
      ⟨[.get (BASE_URL ++ "/" ++ cid)], [],
       ["   Processing status: " ++ pyStr r.jsonStatusCode,
        "❌ Video processing failed. Full error response: " ++ r.body],
       .procError⟩ := by
  have h3 : r.jsonStatusCode ≠ some "FINISHED" := by rw [h2]; simp
  simp only [pollLoop, raiseForStatusMsg_eq_none _ h1, if_neg h3, if_pos h2]

/-- Running the loop through a prefix of non-terminal observations. -/
theorem pollLoop_append_nonterminal (cid : String) (pre rest : List HttpResponse)
    (h : ∀ r ∈ pre, NonTerminal r) :
    pollLoop cid (pre ++ rest) =
      ⟨List.replicate pre.length (.get (BASE_URL ++ "/" ++ cid)) ++ (pollLoop cid rest).calls,
       List.replicate pre.length 5 ++ (pollLoop cid rest).sleeps,
       pre.map (fun r => "   Processing status: " ++ pyStr r.jsonStatusCode)
         ++ (pollLoop cid rest).output,
       (pollLoop cid rest).result⟩ := by
  induction pre with
  | nil => simp
  | cons r pre ih =>
    have hr : NonTerminal r := h r (by simp)
    have hpre : ∀ x ∈ pre, NonTerminal x := fun x hx => h x (by simp [hx])
    rw [List.cons_append, pollLoop_cons_nonterminal cid _ hr, ih hpre]
    simp [List.replicate_succ]

/-- Every request the polling loop makes is the status GET. -/
theorem pollLoop_calls_all_get (cid : String) (l : List HttpResponse) :
    ∀ c ∈ (pollLoop cid l).calls, c = .get (BASE_URL ++ "/" ++ cid) := by
  induction l with
  | nil => simp [pollLoop]
  | cons r rest ih =>
    intro c hc
    simp only [pollLoop] at hc
    rcases hmsg : raiseForStatusMsg (BASE_URL ++ "/" ++ cid) r with _ | msg <;>
      rw [hmsg] at hc
    · by_cases hF : r.jsonStatusCode = some "FINISHED"
      · rw [if_pos hF] at hc; simpa using hc
      · rw [if_neg hF] at hc
        by_cases hE : r.jsonStatusCode = some "ERROR"
        · rw [if_pos hE] at hc; simpa using hc
        · rw [if_neg hE] at hc
          simp only [List.mem_cons] at hc
          rcases hc with hc | hc
          · exact hc
          · exact ih c hc
    · simpa using hc

/-- The container-creation URL and the publish URL differ. -/
theorem create_url_ne_publish_url (ig : String) :
    create_media_container_url ig ≠ publish_media_url ig := by
  intro h
  have h2 := congrArg String.length h
  simp only [create_media_container_url, publish_media_url, String.length_append] at h2
  have e1 : ("/media" : String).length = 6 := rfl
  have e2 : ("/media_publish" : String).length = 14 := rfl
  omega

end Instagram

/-! ## Claim theorems -/

open Instagram in
/-- C2: for every observed status sequence whose first terminal element is
`"ERROR"`, the workflow makes zero publish calls, prints the error detail
from the status response (the full response text), terminates with a
non-zero exit status (`sys.exit(1)`), and stops polling on the first
observation of `"ERROR"` (exactly `pre.length + 1` status queries). -/
theorem poller_error_terminal_aborts
    (ig bucket object : String) (hp : Nat)
    (createResp pubResp err : HttpResponse) (pre rest : List HttpResponse) (cid : String)
    (hc1 : createResp.status < 400) (hc2 : createResp.jsonId = some cid)
    (hpre : ∀ r ∈ pre, NonTerminal r)
    (he1 : err.status < 400) (he2 : err.jsonStatusCode = some "ERROR") :
    (mainWorkflow ig bucket object ⟨hp, none, createResp, pre ++ err :: rest, pubResp⟩).publishCalls ig = 0 ∧
    (mainWorkflow ig bucket object ⟨hp, none, createResp, pre ++ err :: rest, pubResp⟩).outcome = .exitFailure ∧
    (mainWorkflow ig bucket object ⟨hp, none, createResp, pre ++ err :: rest, pubResp⟩).statusQueries = pre.length + 1 ∧
    ("❌ Video processing failed. Full error response: " ++ err.body) ∈
      (mainWorkflow ig bucket object ⟨hp, none, createResp, pre ++ err :: rest, pubResp⟩).output := by
  have hpoll :
      pollLoop cid (pre ++ err :: rest) =
        ⟨List.replicate pre.length (.get (BASE_URL ++ "/" ++ cid)) ++ [.get (BASE_URL ++ "/" ++ cid)],
         List.replicate pre.length 5,
         pre.map (fun r => "   Processing status: " ++ pyStr r.jsonStatusCode)
           ++ ["   Processing status: " ++ pyStr err.jsonStatusCode,
               "❌ Video processing failed. Full error response: " ++ err.body],
         .procError⟩ := by
    rw [pollLoop_append_nonterminal cid pre _ hpre, pollLoop_cons_error cid rest he1 he2]
    simp
  have hmain :
      mainWorkflow ig bucket object ⟨hp, none, createResp, pre ++ err :: rest, pubResp⟩ =
        ⟨.post (create_media_container_url ig) ::
           (List.replicate pre.length (.get (BASE_URL ++ "/" ++ cid))
             ++ [.get (BASE_URL ++ "/" ++ cid)]),
         List.replicate pre.length 5,
         generate_signed_url_output bucket object DEFAULT_EXPIRATION_MINUTES ++
           "→ Creating media container…" :: ("✅ Container ID: " ++ cid) ::
             (pre.map (fun r => "   Processing status: " ++ pyStr r.jsonStatusCode)
               ++ ["   Processing status: " ++ pyStr err.jsonStatusCode,
                   "❌ Video processing failed. Full error response: " ++ err.body]),
         .exitFailure⟩ := by
    simp only [mainWorkflow, create_media_container, raiseForStatusMsg_eq_none _ hc1, hc2,
      hpoll]
  rw [hmain]
  refine ⟨?_, rfl, ?_, ?_⟩
  · simp only [Run.publishCalls, List.countP_cons, List.countP_append, countP_replicate]
    have hne : create_media_container_url ig ≠ publish_media_url ig :=
      create_url_ne_publish_url ig
    simp [hne]
  · simp only [Run.statusQueries, List.countP_cons, List.countP_append, countP_replicate]
    simp [isGetCall]
  · simp

open Instagram in
/-- Witness for `poller_error_terminal_aborts`: the mocked status sequence
`["ERROR"]` gives zero publish calls, a non-zero exit, one status query,
and the response text in the output. -/
theorem poller_error_terminal_aborts_witness :
    (mainWorkflow "123" "b" "v.mp4"
        ⟨200, none, ⟨200, "OK", "", some "C1", none⟩,
         [⟨200, "OK", "ERRDETAIL", none, some "ERROR"⟩],
         ⟨200, "OK", "", some "M9", none⟩⟩).publishCalls "123" = 0 ∧
    (mainWorkflow "123" "b" "v.mp4"
        ⟨200, none, ⟨200, "OK", "", some "C1", none⟩,
         [⟨200, "OK", "ERRDETAIL", none, some "ERROR"⟩],
         ⟨200, "OK", "", some "M9", none⟩⟩).outcome = .exitFailure ∧
    (mainWorkflow "123" "b" "v.mp4"
        ⟨200, none, ⟨200, "OK", "", some "C1", none⟩,
         [⟨200, "OK", "ERRDETAIL", none, some "ERROR"⟩],
         ⟨200, "OK", "", some "M9", none⟩⟩).statusQueries = 1 ∧
    ("❌ Video processing failed. Full error response: " ++ "ERRDETAIL") ∈
      (mainWorkflow "123" "b" "v.mp4"
        ⟨200, none, ⟨200, "OK", "", some "C1", none⟩,
         [⟨200, "OK", "ERRDETAIL", none, some "ERROR"⟩],
         ⟨200, "OK", "", some "M9", none⟩⟩).output :=
  poller_error_terminal_aborts "123" "b" "v.mp4" 200 ⟨200, "OK", "", some "C1", none⟩
    ⟨200, "OK", "", some "M9", none⟩ ⟨200, "OK", "ERRDETAIL", none, some "ERROR"⟩ [] [] "C1"
    (by decide) rfl (by simp) (by decide) rfl

open Instagram in
/-- C3: when the first terminal observation is `"FINISHED"` at 1-based
position `pre.length + 1` (no earlier terminal status), the poller makes
exactly that many status queries (stopping there, whatever follows in
`rest`), then exactly one publish call is made and the workflow returns
the media id from the publish response. -/
theorem poller_finished_then_one_publish
    (ig bucket object : String) (hp : Nat)
    (createResp pubResp fin : HttpResponse) (pre rest : List HttpResponse) (cid mid : String)
    (hc1 : createResp.status < 400) (hc2 : createResp.jsonId = some cid)
    (hpre : ∀ r ∈ pre, NonTerminal r)
    (hf1 : fin.status < 400) (hf2 : fin.jsonStatusCode = some "FINISHED")
    (hpub1 : pubResp.status < 400) (hpub2 : pubResp.jsonId = some mid) :
    (mainWorkflow ig bucket object ⟨hp, none, createResp, pre ++ fin :: rest, pubResp⟩).statusQueries = pre.length + 1 ∧
    (mainWorkflow ig bucket object ⟨hp, none, createResp, pre ++ fin :: rest, pubResp⟩).publishCalls ig = 1 ∧
    (mainWorkflow ig bucket object ⟨hp, none, createResp, pre ++ fin :: rest, pubResp⟩).outcome = .published mid := by
  have hpoll :
      pollLoop cid (pre ++ fin :: rest) =
        ⟨List.replicate pre.length (.get (BASE_URL ++ "/" ++ cid)) ++ [.get (BASE_URL ++ "/" ++ cid)],
         List.replicate pre.length 5,
         pre.map (fun r => "   Processing status: " ++ pyStr r.jsonStatusCode)
           ++ ["   Processing status: " ++ pyStr fin.jsonStatusCode,
               "✅ Video processing complete."],
         .finished⟩ := by
    rw [pollLoop_append_nonterminal cid pre _ hpre, pollLoop_cons_finished cid rest hf1 hf2]
    simp
  have hpub : publish_media ig cid pubResp =
      ⟨[.post (publish_media_url ig)], [],
       ["→ Publishing media container…", "✅ Successfully posted! Media ID: " ++ mid],
       .published mid⟩ := by
    simp only [publish_media, raiseForStatusMsg_eq_none _ hpub1, hpub2]
  have hmain :
      mainWorkflow ig bucket object ⟨hp, none, createResp, pre ++ fin :: rest, pubResp⟩ =
        ⟨(.post (create_media_container_url ig) ::
            (List.replicate pre.length (.get (BASE_URL ++ "/" ++ cid))
              ++ [.get (BASE_URL ++ "/" ++ cid)])) ++ [.post (publish_media_url ig)],
         List.replicate pre.length 5 ++ [],
         (generate_signed_url_output bucket object DEFAULT_EXPIRATION_MINUTES ++
           "→ Creating media container…" :: ("✅ Container ID: " ++ cid) ::
             (pre.map (fun r => "   Processing status: " ++ pyStr r.jsonStatusCode)
               ++ ["   Processing status: " ++ pyStr fin.jsonStatusCode,
                   "✅ Video processing complete."])) ++
           ["→ Publishing media container…", "✅ Successfully posted! Media ID: " ++ mid],
         .published mid⟩ := by
    simp only [mainWorkflow, create_media_container, raiseForStatusMsg_eq_none _ hc1, hc2,
      hpoll, hpub]
  rw [hmain]
  refine ⟨?_, ?_, rfl⟩
  · simp only [Run.statusQueries, List.countP_cons, List.countP_append, countP_replicate]
    simp [isGetCall]
  · simp only [Run.publishCalls, List.countP_cons, List.countP_append, countP_replicate]
    have hne : create_media_container_url ig ≠ publish_media_url ig :=
      create_url_ne_publish_url ig
    simp [hne]

open Instagram in
/-- Witness for `poller_finished_then_one_publish`: scenario A of the
spec — status sequence `["PENDING", "PENDING", "FINISHED"]` yields
exactly 3 status queries, then one publish call returning a media id. -/
theorem poller_finished_then_one_publish_witness :
    (mainWorkflow "123" "b" "v.mp4"
        ⟨200, none, ⟨200, "OK", "", some "C1", none⟩,
         [⟨200, "OK", "", none, some "PENDING"⟩, ⟨200, "OK", "", none, some "PENDING"⟩,
          ⟨200, "OK", "", none, some "FINISHED"⟩],
         ⟨200, "OK", "", some "M9", none⟩⟩).statusQueries = 3 ∧
    (mainWorkflow "123" "b" "v.mp4"
        ⟨200, none, ⟨200, "OK", "", some "C1", none⟩,
         [⟨200, "OK", "", none, some "PENDING"⟩, ⟨200, "OK", "", none, some "PENDING"⟩,
          ⟨200, "OK", "", none, some "FINISHED"⟩],
         ⟨200, "OK", "", some "M9", none⟩⟩).publishCalls "123" = 1 ∧
    (mainWorkflow "123" "b" "v.mp4"
        ⟨200, none, ⟨200, "OK", "", some "C1", none⟩,
         [⟨200, "OK", "", none, some "PENDING"⟩, ⟨200, "OK", "", none, some "PENDING"⟩,
          ⟨200, "OK", "", none, some "FINISHED"⟩],
         ⟨200, "OK", "", some "M9", none⟩⟩).outcome = .published "M9" := by
  have h := poller_finished_then_one_publish "123" "b" "v.mp4" 200
    ⟨200, "OK", "", some "C1", none⟩ ⟨200, "OK", "", some "M9", none⟩
    ⟨200, "OK", "", none, some "FINISHED"⟩
    [⟨200, "OK", "", none, some "PENDING"⟩, ⟨200, "OK", "", none, some "PENDING"⟩] []
    "C1" "M9" (by decide) rfl (by decide) (by decide) rfl (by decide) rfl
  simpa using h

namespace Instagram

/-- A GET call is not a HEAD call. -/
theorem isGet_not_head {c : HttpCall} (h : isGetCall c = true) : isHeadCall c = false := by
  cases c <;> simp_all [isGetCall, isHeadCall]

/-- A GET call is not equal to any POST call. -/
theorem isGet_not_post {c : HttpCall} (u : String) (h : isGetCall c = true) :
    (c == .post u) = false := by
  cases c <;> simp_all [isGetCall]

/-- The requests `create_media_container` makes: first the creation POST,
then only status GETs. -/
theorem create_media_container_calls_shape (ig : String) (resp : HttpResponse)
    (sts : List HttpResponse) :
    ∃ rest, (create_media_container ig resp sts).calls =
        .post (create_media_container_url ig) :: rest ∧
      ∀ c ∈ rest, isGetCall c = true := by
  simp only [create_media_container]
  rcases hmsg : raiseForStatusMsg (create_media_container_url ig) resp with _ | msg
  · rcases hid : resp.jsonId with _ | cid
    · exact ⟨[], rfl, by simp⟩
    · refine ⟨(pollLoop cid sts).calls, rfl, ?_⟩
      intro c hc
      rw [pollLoop_calls_all_get cid sts c hc]
      rfl
  · exact ⟨[], rfl, by simp⟩

/-- The only request `publish_media` makes is the publish POST. -/
theorem publish_media_calls (ig cid : String) (resp : HttpResponse) :
    (publish_media ig cid resp).calls = [.post (publish_media_url ig)] := by
  simp only [publish_media]
  rcases hmsg : raiseForStatusMsg (publish_media_url ig) resp with _ | msg
  · rcases hid : resp.jsonId with _ | mid <;> rfl
  · rfl

end Instagram

open Instagram in
/-- C1 (amended): the workflow issues no reachability probe at all.
Whenever signed-URL generation succeeds, exactly one container-creation
call is made directly — whatever status a HEAD probe of the signed URL
would have returned — and no HEAD request is ever issued. -/
theorem no_reachability_probe_before_create
    (ig bucket object : String) (env : Env) (h : env.signedUrlError = none) :
    (mainWorkflow ig bucket object env).headProbes = 0 ∧
    (mainWorkflow ig bucket object env).createCalls ig = 1 := by
  obtain ⟨hps, su, cr, sts, pub⟩ := env
  simp only [Env.signedUrlError] at h
  subst h
  obtain ⟨rest, hcalls, hrest⟩ := create_media_container_calls_shape ig cr sts
  have hrest_head : ∀ c ∈ rest, ¬ isHeadCall c = true := by
    intro c hc
    simp [isGet_not_head (hrest c hc)]
  have hrest_post : ∀ c ∈ rest, ¬ (c == .post (create_media_container_url ig)) = true := by
    intro c hc
    simp [isGet_not_post _ (hrest c hc)]
  have hne : publish_media_url ig ≠ create_media_container_url ig :=
    (create_url_ne_publish_url ig).symm
  simp only [mainWorkflow]
  rcases hres : (create_media_container ig cr sts).result with cid | msg | _ | _
  case ok =>
    constructor
    · simp only [Run.headProbes, hcalls, publish_media_calls, List.countP_cons,
        List.countP_append]
      rw [List.countP_eq_zero.mpr hrest_head]
      simp [isHeadCall]
    · simp only [Run.createCalls, hcalls, publish_media_calls, List.countP_cons,
        List.countP_append]
      rw [List.countP_eq_zero.mpr hrest_post]
      simp [hne]
  all_goals constructor
  all_goals simp only [Run.headProbes, Run.createCalls, hcalls, List.countP_cons]
  · rw [List.countP_eq_zero.mpr hrest_head]; simp [isHeadCall]
  · rw [List.countP_eq_zero.mpr hrest_post]; simp
  · rw [List.countP_eq_zero.mpr hrest_head]; simp [isHeadCall]
  · rw [List.countP_eq_zero.mpr hrest_post]; simp
  · rw [List.countP_eq_zero.mpr hrest_head]; simp [isHeadCall]
  · rw [List.countP_eq_zero.mpr hrest_post]; simp

open Instagram in
/-- Witness for `no_reachability_probe_before_create`. -/
theorem no_reachability_probe_before_create_witness :
    (mainWorkflow "123" "b" "v.mp4"
        ⟨404, none, ⟨200, "OK", "", some "C1", none⟩,
         [⟨200, "OK", "", none, some "FINISHED"⟩],
         ⟨200, "OK", "", some "M9", none⟩⟩).headProbes = 0 ∧
    (mainWorkflow "123" "b" "v.mp4"
        ⟨404, none, ⟨200, "OK", "", some "C1", none⟩,
         [⟨200, "OK", "", none, some "FINISHED"⟩],
         ⟨200, "OK", "", some "M9", none⟩⟩).createCalls "123" = 1 :=
  no_reachability_probe_before_create "123" "b" "v.mp4"
    ⟨404, none, ⟨200, "OK", "", some "C1", none⟩,
     [⟨200, "OK", "", none, some "FINISHED"⟩],
     ⟨200, "OK", "", some "M9", none⟩⟩ rfl

open Instagram in
/-- Counterexample to C1 as stated: in a run where a HEAD probe of the
signed URL would return 404, the workflow still issues no probe, makes
the container-creation call anyway, and completes the publication instead
of aborting. -/
theorem reachability_probe_counterexample :
    (mainWorkflow "123" "b" "v.mp4"
        ⟨404, none, ⟨200, "OK", "", some "C1", none⟩,
         [⟨200, "OK", "", none, some "FINISHED"⟩],
         ⟨200, "OK", "", some "M9", none⟩⟩).headProbes = 0 ∧
    (mainWorkflow "123" "b" "v.mp4"
        ⟨404, none, ⟨200, "OK", "", some "C1", none⟩,
         [⟨200, "OK", "", none, some "FINISHED"⟩],
         ⟨200, "OK", "", some "M9", none⟩⟩).createCalls "123" = 1 ∧
    (mainWorkflow "123" "b" "v.mp4"
        ⟨404, none, ⟨200, "OK", "", some "C1", none⟩,
         [⟨200, "OK", "", none, some "FINISHED"⟩],
         ⟨200, "OK", "", some "M9", none⟩⟩).outcome = .published "M9" := by
  decide

open Instagram in
/-- C6 (amended): a non-success response to the container-creation POST
aborts the run before any status query or publish call, with a non-zero
exit caused by the uncaught `HTTPError`; the diagnostic surfaced is the
exception message (status code, reason phrase and URL), not the response
body. -/
theorem create_nonsuccess_aborts
    (ig bucket object : String) (env : Env) (h : env.signedUrlError = none)
    (h4 : 400 ≤ env.createResp.status) (h6 : env.createResp.status < 600) :
    ∃ msg, raiseForStatusMsg (create_media_container_url ig) env.createResp = some msg ∧
      (mainWorkflow ig bucket object env).calls = [.post (create_media_container_url ig)] ∧
      (mainWorkflow ig bucket object env).statusQueries = 0 ∧
      (mainWorkflow ig bucket object env).publishCalls ig = 0 ∧
      (mainWorkflow ig bucket object env).outcome = .exception msg ∧
      msg ∈ (mainWorkflow ig bucket object env).output := by
  obtain ⟨hps, su, cr, sts, pub⟩ := env
  simp only [Env.signedUrlError] at h
  subst h
  simp only [Env.createResp] at h4 h6
  by_cases h5 : cr.status < 500
  · refine ⟨toString cr.status ++ " Client Error: " ++ cr.reason ++ " for url: " ++
      create_media_container_url ig, ?_⟩
    have hmsg : raiseForStatusMsg (create_media_container_url ig) cr =
        some (toString cr.status ++ " Client Error: " ++ cr.reason ++ " for url: " ++
          create_media_container_url ig) := by
      unfold raiseForStatusMsg
      rw [if_pos ⟨h4, h5⟩]
    refine ⟨hmsg, ?_⟩
    simp only [mainWorkflow, create_media_container, hmsg]
    simp [Run.statusQueries, Run.publishCalls, isGetCall, create_url_ne_publish_url ig]
  · refine ⟨toString cr.status ++ " Server Error: " ++ cr.reason ++ " for url: " ++
      create_media_container_url ig, ?_⟩
    have hmsg : raiseForStatusMsg (create_media_container_url ig) cr =
        some (toString cr.status ++ " Server Error: " ++ cr.reason ++ " for url: " ++
          create_media_container_url ig) := by
      unfold raiseForStatusMsg
      rw [if_neg (by omega), if_pos (by omega)]
    refine ⟨hmsg, ?_⟩
    simp only [mainWorkflow, create_media_container, hmsg]
    simp [Run.statusQueries, Run.publishCalls, isGetCall, create_url_ne_publish_url ig]

open Instagram in
/-- Witness for `create_nonsuccess_aborts`. -/
theorem create_nonsuccess_aborts_witness :
    ∃ msg, raiseForStatusMsg (create_media_container_url "123")
        (⟨400, "Bad Request", "PROVIDERERRORBODY", some "C1", none⟩ : HttpResponse) = some msg ∧
      (mainWorkflow "123" "b" "v.mp4"
        ⟨200, none, ⟨400, "Bad Request", "PROVIDERERRORBODY", some "C1", none⟩, [],
         ⟨200, "OK", "", some "M9", none⟩⟩).calls = [.post (create_media_container_url "123")] ∧
      (mainWorkflow "123" "b" "v.mp4"
        ⟨200, none, ⟨400, "Bad Request", "PROVIDERERRORBODY", some "C1", none⟩, [],
         ⟨200, "OK", "", some "M9", none⟩⟩).statusQueries = 0 ∧
      (mainWorkflow "123" "b" "v.mp4"
        ⟨200, none, ⟨400, "Bad Request", "PROVIDERERRORBODY", some "C1", none⟩, [],
         ⟨200, "OK", "", some "M9", none⟩⟩).publishCalls "123" = 0 ∧
      (mainWorkflow "123" "b" "v.mp4"
        ⟨200, none, ⟨400, "Bad Request", "PROVIDERERRORBODY", some "C1", none⟩, [],
         ⟨200, "OK", "", some "M9", none⟩⟩).outcome = .exception msg ∧
      msg ∈ (mainWorkflow "123" "b" "v.mp4"
        ⟨200, none, ⟨400, "Bad Request", "PROVIDERERRORBODY", some "C1", none⟩, [],
         ⟨200, "OK", "", some "M9", none⟩⟩).output :=
  create_nonsuccess_aborts "123" "b" "v.mp4"
    ⟨200, none, ⟨400, "Bad Request", "PROVIDERERRORBODY", some "C1", none⟩, [],
     ⟨200, "OK", "", some "M9", none⟩⟩ rfl (by decide) (by decide)

open Instagram in
/-- Counterexample to C6 as stated: with a 400 response to container
creation whose body is `"PROVIDERERRORBODY"`, the run does abort, but no
printed line contains the response body — the `HTTPError` message that is
surfaced carries only the status code, reason and URL. -/
theorem create_nonsuccess_body_not_surfaced :
    ((mainWorkflow "123" "b" "v.mp4"
        ⟨200, none, ⟨400, "Bad Request", "PROVIDERERRORBODY", some "C1", none⟩, [],
         ⟨200, "OK", "", some "M9", none⟩⟩).output.all
      (fun l => ! containsStr "PROVIDERERRORBODY" l)) = true ∧
    (mainWorkflow "123" "b" "v.mp4"
        ⟨200, none, ⟨400, "Bad Request", "PROVIDERERRORBODY", some "C1", none⟩, [],
         ⟨200, "OK", "", some "M9", none⟩⟩).outcome =
      .exception ("400 Client Error: Bad Request for url: " ++
        "https://graph.facebook.com/v19.0/123/media") := by
  decide

open Instagram in
/-- C9: any observed status other than `"FINISHED"` and `"ERROR"` —
including a missing `status_code` field (read as `None`) or an
unrecognised string — makes the poller wait the fixed interval and query
again, continuing exactly as it would after observing `"PENDING"`. -/
theorem poller_nonterminal_like_pending
    (cid : String) (r r2 : HttpResponse) (rest : List HttpResponse)
    (h1 : r.status < 400) (h2 : r.jsonStatusCode ≠ some "FINISHED")
    (h3 : r.jsonStatusCode ≠ some "ERROR")
    (hp1 : r2.status < 400) (hp2 : r2.jsonStatusCode = some "PENDING") :
    (pollLoop cid (r :: rest)).result = (pollLoop cid rest).result ∧
    (pollLoop cid (r :: rest)).calls =
      .get (BASE_URL ++ "/" ++ cid) :: (pollLoop cid rest).calls ∧
    (pollLoop cid (r :: rest)).sleeps = 5 :: (pollLoop cid rest).sleeps ∧
    (pollLoop cid (r :: rest)).result = (pollLoop cid (r2 :: rest)).result ∧
    (pollLoop cid (r :: rest)).calls = (pollLoop cid (r2 :: rest)).calls ∧
    (pollLoop cid (r :: rest)).sleeps = (pollLoop cid (r2 :: rest)).sleeps := by
  have hr2 : NonTerminal r2 := ⟨hp1, by simp [hp2], by simp [hp2]⟩
  rw [pollLoop_cons_nonterminal cid rest ⟨h1, h2, h3⟩,
    pollLoop_cons_nonterminal cid rest hr2]
  simp

open Instagram in
/-- Witness for `poller_nonterminal_like_pending`: a status response whose
JSON lacks the `status_code` field entirely is treated like `"PENDING"`. -/
theorem poller_nonterminal_like_pending_witness :
    (pollLoop "C1" [⟨200, "OK", "", none, none⟩]).result = (pollLoop "C1" []).result ∧
    (pollLoop "C1" [⟨200, "OK", "", none, none⟩]).calls =
      .get (BASE_URL ++ "/" ++ "C1") :: (pollLoop "C1" []).calls ∧
    (pollLoop "C1" [⟨200, "OK", "", none, none⟩]).sleeps = 5 :: (pollLoop "C1" []).sleeps ∧
    (pollLoop "C1" [⟨200, "OK", "", none, none⟩]).result =
      (pollLoop "C1" [⟨200, "OK", "", none, some "PENDING"⟩]).result ∧
    (pollLoop "C1" [⟨200, "OK", "", none, none⟩]).calls =
      (pollLoop "C1" [⟨200, "OK", "", none, some "PENDING"⟩]).calls ∧
    (pollLoop "C1" [⟨200, "OK", "", none, none⟩]).sleeps =
      (pollLoop "C1" [⟨200, "OK", "", none, some "PENDING"⟩]).sleeps :=
  poller_nonterminal_like_pending "C1" ⟨200, "OK", "", none, none⟩
    ⟨200, "OK", "", none, some "PENDING"⟩ [] (by decide) (by decide) (by decide)
    (by decide) rfl

open Instagram in
/-- The polling loop ends for some reason other than running out of
supplied responses exactly when the sequence contains a terminal status,
provided every status query gets an HTTP-success response. -/
theorem pollLoop_result_ne_exhausted_iff (cid : String) (resps : List HttpResponse)
    (hsucc : ∀ r ∈ resps, r.status < 400) :
    (pollLoop cid resps).result ≠ .exhausted ↔
      ∃ r ∈ resps, r.jsonStatusCode = some "FINISHED" ∨ r.jsonStatusCode = some "ERROR" := by
  induction resps with
  | nil => simp [pollLoop]
  | cons r rest ih =>
    have hr : r.status < 400 := hsucc r (by simp)
    have hrest : ∀ x ∈ rest, x.status < 400 := fun x hx => hsucc x (by simp [hx])
    by_cases hF : r.jsonStatusCode = some "FINISHED"
    · rw [pollLoop_cons_finished cid rest hr hF]
      simp [hF]
    · by_cases hE : r.jsonStatusCode = some "ERROR"
      · rw [pollLoop_cons_error cid rest hr hE]
        simp [hE]
      · rw [pollLoop_cons_nonterminal cid rest ⟨hr, hF, hE⟩]
        simp only [List.mem_cons, exists_eq_or_imp, hF, hE, false_or, or_false]
        exact ih hrest

open Instagram in
/-- C4: the polling loop has no retry bound and no timeout.  Under
HTTP-success status responses it leaves the loop iff the observed status
sequence contains `"FINISHED"` or `"ERROR"`; through any all-non-terminal
sequence it performs one query and one fixed 5-second wait per
observation and is still polling at the end, and the workflow neither
publishes nor exits. -/
theorem poller_unbounded_no_timeout (cid : String) (resps : List HttpResponse) :
    ((∀ r ∈ resps, r.status < 400) →
      ((pollLoop cid resps).result ≠ .exhausted ↔
        ∃ r ∈ resps, r.jsonStatusCode = some "FINISHED" ∨ r.jsonStatusCode = some "ERROR")) ∧
    ((∀ r ∈ resps, NonTerminal r) →
      (pollLoop cid resps).result = .exhausted ∧
      (pollLoop cid resps).calls =
        List.replicate resps.length (.get (BASE_URL ++ "/" ++ cid)) ∧
      (pollLoop cid resps).sleeps = List.replicate resps.length 5) ∧
    (∀ ig bucket object hp createResp pubResp,
      createResp.status < 400 → createResp.jsonId = some cid →
      (∀ r ∈ resps, NonTerminal r) →
      (mainWorkflow ig bucket object ⟨hp, none, createResp, resps, pubResp⟩).publishCalls ig = 0 ∧
      (mainWorkflow ig bucket object ⟨hp, none, createResp, resps, pubResp⟩).outcome = .stillPolling) := by
  have hbody : ∀ (h : ∀ r ∈ resps, NonTerminal r),
      pollLoop cid resps =
        ⟨List.replicate resps.length (.get (BASE_URL ++ "/" ++ cid)),
         List.replicate resps.length 5,
         resps.map (fun r => "   Processing status: " ++ pyStr r.jsonStatusCode),
         .exhausted⟩ := by
    intro h
    have := pollLoop_append_nonterminal cid resps [] h
    rw [List.append_nil] at this
    rw [this]
    simp [pollLoop]
  refine ⟨pollLoop_result_ne_exhausted_iff cid resps, ?_, ?_⟩
  · intro h
    rw [hbody h]
    exact ⟨rfl, rfl, rfl⟩
  · intro ig bucket object hp createResp pubResp hc1 hc2 h
    have hmain :
        mainWorkflow ig bucket object ⟨hp, none, createResp, resps, pubResp⟩ =
          ⟨.post (create_media_container_url ig) ::
             List.replicate resps.length (.get (BASE_URL ++ "/" ++ cid)),
           List.replicate resps.length 5,
           generate_signed_url_output bucket object DEFAULT_EXPIRATION_MINUTES ++
             "→ Creating media container…" :: ("✅ Container ID: " ++ cid) ::
               resps.map (fun r => "   Processing status: " ++ pyStr r.jsonStatusCode),
           .stillPolling⟩ := by
      simp only [mainWorkflow, create_media_container, raiseForStatusMsg_eq_none _ hc1, hc2,
        hbody h]
    rw [hmain]
    constructor
    · simp only [Run.publishCalls, List.countP_cons, countP_replicate]
      have hne : create_media_container_url ig ≠ publish_media_url ig :=
        create_url_ne_publish_url ig
      simp [hne]
    · rfl

open Instagram in
/-- Witness for `poller_unbounded_no_timeout` at the one-element
non-terminal sequence `["PENDING"]`. -/
theorem poller_unbounded_no_timeout_witness :
    ((pollLoop "C1" [⟨200, "OK", "", none, some "PENDING"⟩]).result ≠ .exhausted ↔
      ∃ r ∈ [(⟨200, "OK", "", none, some "PENDING"⟩ : HttpResponse)],
        r.jsonStatusCode = some "FINISHED" ∨ r.jsonStatusCode = some "ERROR") ∧
    ((pollLoop "C1" [⟨200, "OK", "", none, some "PENDING"⟩]).result = .exhausted ∧
      (pollLoop "C1" [⟨200, "OK", "", none, some "PENDING"⟩]).calls =
        List.replicate 1 (.get (BASE_URL ++ "/" ++ "C1")) ∧
      (pollLoop "C1" [⟨200, "OK", "", none, some "PENDING"⟩]).sleeps = List.replicate 1 5) ∧
    ((mainWorkflow "123" "b" "v.mp4"
        ⟨200, none, ⟨200, "OK", "", some "C1", none⟩,
         [⟨200, "OK", "", none, some "PENDING"⟩],
         ⟨200, "OK", "", some "M9", none⟩⟩).publishCalls "123" = 0 ∧
      (mainWorkflow "123" "b" "v.mp4"
        ⟨200, none, ⟨200, "OK", "", some "C1", none⟩,
         [⟨200, "OK", "", none, some "PENDING"⟩],
         ⟨200, "OK", "", some "M9", none⟩⟩).outcome = .stillPolling) := by
  have h := poller_unbounded_no_timeout "C1" [⟨200, "OK", "", none, some "PENDING"⟩]
  exact ⟨h.1 (by decide), h.2.1 (by decide),
    h.2.2 "123" "b" "v.mp4" 200 ⟨200, "OK", "", some "C1", none⟩
      ⟨200, "OK", "", some "M9", none⟩ (by decide) rfl (by decide)⟩

open Instagram in
/-- C5: for every `(bucketName, objectName)` and requested validity window
`expiry > 0` minutes, the issued signing request is restricted to the GET
method and expires exactly at issuance time + `expiry` minutes; a caller
that supplies no window (as the `__main__` block does) gets the default
of 15 minutes. -/
theorem signed_url_get_method_and_expiry (bucket object : String) (expiry : Nat)
    (hpos : 0 < expiry) :
    (generate_signed_url bucket object expiry).method = "GET" ∧
    (generate_signed_url bucket object expiry).version = "v4" ∧
    (generate_signed_url bucket object expiry).expirationMinutes = expiry ∧
    (∀ issuedAt : Nat,
      (generate_signed_url bucket object expiry).expiresAt issuedAt =
        issuedAt + expiry * 60) ∧
    DEFAULT_EXPIRATION_MINUTES = 15 ∧
    (generate_signed_url bucket object DEFAULT_EXPIRATION_MINUTES).expirationMinutes = 15 := by
  exact ⟨rfl, rfl, rfl, fun _ => rfl, rfl, rfl⟩

open Instagram in
/-- Witness for `signed_url_get_method_and_expiry` at
`gs://b/v.mp4`, 15 minutes. -/
theorem signed_url_get_method_and_expiry_witness :
    (generate_signed_url "b" "v.mp4" 15).method = "GET" ∧
    (generate_signed_url "b" "v.mp4" 15).version = "v4" ∧
    (generate_signed_url "b" "v.mp4" 15).expirationMinutes = 15 ∧
    (∀ issuedAt : Nat,
      (generate_signed_url "b" "v.mp4" 15).expiresAt issuedAt = issuedAt + 15 * 60) ∧
    DEFAULT_EXPIRATION_MINUTES = 15 ∧
    (generate_signed_url "b" "v.mp4" DEFAULT_EXPIRATION_MINUTES).expirationMinutes = 15 :=
  signed_url_get_method_and_expiry "b" "v.mp4" 15 (by decide)

open GcsUpload in
/-- C10: every upload request of `googleCloud_upload.py` carries the
precondition `if_generation_match=0`; when an object with the destination
name already exists, the upload fails with `PreconditionFailed`, the
process exits with status 1, and the bucket — in particular the
pre-existing object — is unchanged. -/
theorem gcs_upload_never_overwrites (bucket object content : String) (state : BucketState)
    (hexists : (state object).isSome) :
    (uploadRequest bucket object).ifGenerationMatch = some 0 ∧
    uploadMain bucket object content state = (state, 1, true) := by
  refine ⟨rfl, ?_⟩
  unfold uploadMain applyUpload uploadRequest
  simp [hexists]

open GcsUpload in
/-- Witness for `gcs_upload_never_overwrites`: a bucket already holding
`v.mp4` rejects the upload and keeps its content. -/
theorem gcs_upload_never_overwrites_witness :
    (uploadRequest "b" "v.mp4").ifGenerationMatch = some 0 ∧
    uploadMain "b" "v.mp4" "newbytes"
        (fun n => if n = "v.mp4" then some "oldbytes" else none) =
      ((fun n => if n = "v.mp4" then some "oldbytes" else none), 1, true) :=
  gcs_upload_never_overwrites "b" "v.mp4" "newbytes"
    (fun n => if n = "v.mp4" then some "oldbytes" else none) (by simp)

namespace Mirror

/-- A name in `existing` is never downloaded, and its destination entry is
untouched. -/
theorem downloadLoop_skips (dc : String → String) (existing : String → Bool)
    (name : String) (h : existing name = true) :
    ∀ (files : List DriveFile) (dest : DirState),
      name ∉ (downloadLoop dc existing files dest).2 ∧
      (downloadLoop dc existing files dest).1 name = dest name := by
  intro files
  induction files with
  | nil => intro dest; simp [downloadLoop]
  | cons f rest ih =>
    intro dest
    by_cases hf : existing f.name
    · simp only [downloadLoop, if_pos hf]
      exact ih dest
    · simp only [downloadLoop, if_neg hf]
      have hne : name ≠ f.name := fun he => hf (he ▸ h)
      constructor
      · simp only [List.mem_cons, not_or]
        exact ⟨hne, (ih _).1⟩
      · rw [(ih _).2]
        simp [hne]

/-- Every downloaded name was absent from `existing`. -/
theorem downloadLoop_transfers_absent (dc : String → String) (existing : String → Bool) :
    ∀ (files : List DriveFile) (dest : DirState) (name : String),
      name ∈ (downloadLoop dc existing files dest).2 → existing name = false := by
  intro files
  induction files with
  | nil => intro dest name hmem; simp [downloadLoop] at hmem
  | cons f rest ih =>
    intro dest name hmem
    by_cases hf : existing f.name
    · rw [downloadLoop, if_pos hf] at hmem
      exact ih _ _ hmem
    · rw [downloadLoop, if_neg hf] at hmem
      simp only [List.mem_cons] at hmem
      rcases hmem with he | hmem
      · rw [he]
        simpa using hf
      · exact ih _ _ hmem

/-- Every listed Drive file whose name is absent from `existing` is
downloaded. -/
theorem downloadLoop_absent_transferred (dc : String → String) (existing : String → Bool) :
    ∀ (files : List DriveFile) (dest : DirState) (f : DriveFile),
      f ∈ files → existing f.name = false →
      f.name ∈ (downloadLoop dc existing files dest).2 := by
  intro files
  induction files with
  | nil => intro dest f hmem; simp at hmem
  | cons g rest ih =>
    intro dest f hmem habs
    rcases List.mem_cons.mp hmem with he | hmem
    · subst he
      rw [downloadLoop, if_neg (by simp [habs])]
      simp
    · by_cases hg : existing g.name
      · rw [downloadLoop, if_pos hg]
        exact ih _ _ hmem habs
      · rw [downloadLoop, if_neg hg]
        simp only [List.mem_cons]
        exact Or.inr (ih _ _ hmem habs)

/-- A name in `existing` is never uploaded. -/
theorem uploadLoop_skips (existing : String → Bool) (name : String)
    (h : existing name = true) :
    ∀ (locals : List LocalFile) (folder : List (String × String)),
      name ∉ (uploadLoop existing locals folder).2 := by
  intro locals
  induction locals with
  | nil => intro folder; simp [uploadLoop]
  | cons f rest ih =>
    intro folder
    by_cases hf : f.isFile && !(existing f.name)
    · rw [uploadLoop, if_pos hf]
      have hne : name ≠ f.name := by
        intro he
        rw [he] at h
        simp [h] at hf
      simp only [List.mem_cons, not_or]
      exact ⟨hne, ih _⟩
    · rw [uploadLoop, if_neg hf]
      exact ih _

/-- Every uploaded name was absent from `existing`. -/
theorem uploadLoop_uploads_absent (existing : String → Bool) :
    ∀ (locals : List LocalFile) (folder : List (String × String)) (name : String),
      name ∈ (uploadLoop existing locals folder).2 → existing name = false := by
  intro locals
  induction locals with
  | nil => intro folder name hmem; simp [uploadLoop] at hmem
  | cons f rest ih =>
    intro folder name hmem
    by_cases hf : f.isFile && !(existing f.name)
    · rw [uploadLoop, if_pos hf] at hmem
      rcases List.mem_cons.mp hmem with he | hmem
      · rw [he]
        cases hb : existing f.name
        · rfl
        · rw [hb] at hf
          simp at hf
      · exact ih _ _ hmem
    · rw [uploadLoop, if_neg hf] at hmem
      exact ih _ _ hmem

/-- Uploading only appends to the Drive folder: every pre-existing entry
survives unchanged, in place. -/
theorem uploadLoop_appends (existing : String → Bool) :
    ∀ (locals : List LocalFile) (folder : List (String × String)),
      ∃ ext, (uploadLoop existing locals folder).1 = folder ++ ext := by
  intro locals
  induction locals with
  | nil => intro folder; exact ⟨[], by simp [uploadLoop]⟩
  | cons f rest ih =>
    intro folder
    by_cases hf : f.isFile && !(existing f.name)
    · rw [uploadLoop, if_pos hf]
      obtain ⟨ext, hext⟩ := ih (folder ++ [(f.name, f.content)])
      exact ⟨(f.name, f.content) :: ext, by simp [hext]⟩
    · rw [uploadLoop, if_neg hf]
      exact ih _

/-- Every local file whose name is absent from `existing` is uploaded. -/
theorem uploadLoop_absent_uploaded (existing : String → Bool) :
    ∀ (locals : List LocalFile) (folder : List (String × String)) (g : LocalFile),
      g ∈ locals → g.isFile = true → existing g.name = false →
      g.name ∈ (uploadLoop existing locals folder).2 := by
  intro locals
  induction locals with
  | nil => intro folder g hmem; simp at hmem
  | cons f rest ih =>
    intro folder g hmem hfile habs
    rcases List.mem_cons.mp hmem with he | hmem
    · subst he
      rw [uploadLoop, if_pos (by simp [hfile, habs])]
      simp
    · by_cases hf : f.isFile && !(existing f.name)
      · rw [uploadLoop, if_pos hf]
        simp only [List.mem_cons]
        exact Or.inr (ih _ _ hmem hfile habs)
      · rw [uploadLoop, if_neg hf]
        exact ih _ _ hmem hfile habs

/-- `List.contains` agrees with membership on strings. -/
theorem contains_iff_mem (l : List String) (a : String) : l.contains a = true ↔ a ∈ l := by
  simp [List.contains, List.elem_iff]

end Mirror

open Mirror in
/-- C7: both mirror scripts skip files already present at the destination.
For the Drive-to-local mirror: a name already present locally is never
downloaded and its local entry is unchanged, every downloaded name was
initially absent, and every listed file with an absent name is
downloaded.  For the local-to-Drive mirror: a name already in the Drive
folder listing is never uploaded, every uploaded name was absent from the
listing, uploads only append (the pre-existing Drive entries survive
unchanged), and every local file with an absent name is uploaded. -/
theorem mirrors_skip_existing_files :
    (∀ (dc : String → String) (files : List DriveFile) (dest : DirState) (name : String),
      (dest name).isSome = true →
      name ∉ (mirrorDownload dc files dest).2 ∧
      (mirrorDownload dc files dest).1 name = dest name) ∧
    (∀ (dc : String → String) (files : List DriveFile) (dest : DirState) (name : String),
      name ∈ (mirrorDownload dc files dest).2 → dest name = none) ∧
    (∀ (dc : String → String) (files : List DriveFile) (dest : DirState) (f : DriveFile),
      f ∈ files → dest f.name = none → f.name ∈ (mirrorDownload dc files dest).2) ∧
    (∀ (locals : List LocalFile) (folder : List (String × String)) (name : String),
      name ∈ folder.map Prod.fst → name ∉ (upload_new_files locals folder).2) ∧
    (∀ (locals : List LocalFile) (folder : List (String × String)) (name : String),
      name ∈ (upload_new_files locals folder).2 → name ∉ folder.map Prod.fst) ∧
    (∀ (locals : List LocalFile) (folder : List (String × String)),
      ∃ ext, (upload_new_files locals folder).1 = folder ++ ext) ∧
    (∀ (locals : List LocalFile) (folder : List (String × String)) (g : LocalFile),
      g ∈ locals → g.isFile = true → g.name ∉ folder.map Prod.fst →
      g.name ∈ (upload_new_files locals folder).2) := by
  refine ⟨?_, ?_, ?_, ?_, ?_, ?_, ?_⟩
  · intro dc files dest name h
    exact downloadLoop_skips dc _ name h files dest
  · intro dc files dest name h
    have := downloadLoop_transfers_absent dc (fun n => (dest n).isSome) files dest name h
    simpa using this
  · intro dc files dest f hmem habs
    exact downloadLoop_absent_transferred dc _ files dest f hmem (by simp [habs])
  · intro locals folder name h
    exact uploadLoop_skips _ name ((contains_iff_mem _ _).mpr h) locals folder
  · intro locals folder name h
    have habs := uploadLoop_uploads_absent (fun n => (folder.map Prod.fst).contains n)
      locals folder name h
    intro hmem
    have : (folder.map Prod.fst).contains name = true := (contains_iff_mem _ _).mpr hmem
    simp only at habs
    rw [this] at habs
    cases habs
  · intro locals folder
    exact uploadLoop_appends _ locals folder
  · intro locals folder g hmem hfile habs
    refine uploadLoop_absent_uploaded _ locals folder g hmem hfile ?_
    cases hb : (folder.map Prod.fst).contains g.name
    · rfl
    · exact absurd ((contains_iff_mem _ _).mp hb) habs

open Mirror in
/-- Witness for `mirrors_skip_existing_files`: a Drive listing with
`a.png` (already local, skipped) and `b.png` (absent, downloaded), and a
local directory with `d.png` (already on Drive, skipped) and `e.png`
(absent, uploaded). -/
theorem mirrors_skip_existing_files_witness :
    ("a.png" ∉ (mirrorDownload (fun _ => "bytes") [⟨"id1", "a.png"⟩, ⟨"id2", "b.png"⟩]
        (fun n => if n = "a.png" then some "old" else none)).2 ∧
      (mirrorDownload (fun _ => "bytes") [⟨"id1", "a.png"⟩, ⟨"id2", "b.png"⟩]
        (fun n => if n = "a.png" then some "old" else none)).1 "a.png" =
        (fun n => if n = "a.png" then some "old" else none) "a.png") ∧
    (fun n => if n = "a.png" then some "old" else none) "b.png" = (none : Option String) ∧
    "b.png" ∈ (mirrorDownload (fun _ => "bytes") [⟨"id1", "a.png"⟩, ⟨"id2", "b.png"⟩]
        (fun n => if n = "a.png" then some "old" else none)).2 ∧
    "d.png" ∉ (upload_new_files [⟨"d.png", true, "z"⟩, ⟨"e.png", true, "w"⟩]
        [("d.png", "y")]).2 ∧
    "e.png" ∉ ([("d.png", "y")].map Prod.fst) ∧
    (∃ ext, (upload_new_files [⟨"d.png", true, "z"⟩, ⟨"e.png", true, "w"⟩]
        [("d.png", "y")]).1 = [("d.png", "y")] ++ ext) ∧
    "e.png" ∈ (upload_new_files [⟨"d.png", true, "z"⟩, ⟨"e.png", true, "w"⟩]
        [("d.png", "y")]).2 := by
  have h := mirrors_skip_existing_files
  refine ⟨h.1 (fun _ => "bytes") [⟨"id1", "a.png"⟩, ⟨"id2", "b.png"⟩]
      (fun n => if n = "a.png" then some "old" else none) "a.png" (by simp), ?_, ?_, ?_, ?_, ?_, ?_⟩
  · exact h.2.1 (fun _ => "bytes") [⟨"id1", "a.png"⟩, ⟨"id2", "b.png"⟩]
      (fun n => if n = "a.png" then some "old" else none) "b.png" (by decide)
  · exact h.2.2.1 (fun _ => "bytes") [⟨"id1", "a.png"⟩, ⟨"id2", "b.png"⟩]
      (fun n => if n = "a.png" then some "old" else none) ⟨"id2", "b.png"⟩ (by simp) (by simp)
  · exact h.2.2.2.1 [⟨"d.png", true, "z"⟩, ⟨"e.png", true, "w"⟩] [("d.png", "y")] "d.png"
      (by simp)
  · exact h.2.2.2.2.1 [⟨"d.png", true, "z"⟩, ⟨"e.png", true, "w"⟩] [("d.png", "y")] "e.png"
      (by decide)
  · exact h.2.2.2.2.2.1 [⟨"d.png", true, "z"⟩, ⟨"e.png", true, "w"⟩] [("d.png", "y")]
  · exact h.2.2.2.2.2.2 [⟨"d.png", true, "z"⟩, ⟨"e.png", true, "w"⟩] [("d.png", "y")]
      ⟨"e.png", true, "w"⟩ (by simp) rfl (by simp)

namespace NaturalSort

/-- The split of any string is nonempty. -/
theorem splitChars_ne_nil (cs : List Char) : splitChars cs ≠ [] := by
  cases cs with
  | nil => simp [splitChars]
  | cons c cs =>
    unfold splitChars
    split
    · split <;> simp
    · split <;> simp

/-- Prepending a non-digit character extends the leading non-digit
piece. -/
theorem splitChars_cons_nondigit (c : Char) (cs : List Char) (h : c.isDigit = false)
    (nd : List Char) (rest : List (List Char)) (hcs : splitChars cs = nd :: rest) :
    splitChars (c :: cs) = (c :: nd) :: rest := by
  unfold splitChars
  rw [if_neg (by simp [h]), hcs]

/-- Prepending a digit to a string that starts with a digit run extends
that run. -/
theorem splitChars_cons_digit_merge (c : Char) (cs : List Char) (h : c.isDigit = true)
    (d : List Char) (rest : List (List Char)) (hcs : splitChars cs = [] :: d :: rest) :
    splitChars (c :: cs) = [] :: (c :: d) :: rest := by
  unfold splitChars
  rw [if_pos (by simp [h]), hcs]

/-- Prepending a digit to a string that starts with a non-digit character
opens a fresh digit run. -/
theorem splitChars_cons_digit_cons (c : Char) (cs : List Char) (h : c.isDigit = true)
    (x : Char) (nd : List Char) (rest : List (List Char))
    (hcs : splitChars cs = (x :: nd) :: rest) :
    splitChars (c :: cs) = [] :: [c] :: (x :: nd) :: rest := by
  unfold splitChars
  rw [if_pos (by simp [h]), hcs]

/-- Prepending a digit to a string whose split is a single piece opens a
fresh digit run. -/
theorem splitChars_cons_digit_single (c : Char) (cs : List Char) (h : c.isDigit = true)
    (nd : List Char) (hcs : splitChars cs = [nd]) :
    splitChars (c :: cs) = [] :: [c] :: [nd] := by
  unfold splitChars
  rw [if_pos (by simp [h]), hcs]
  cases nd <;> rfl

/-- Only the empty string splits into a single empty piece. -/
theorem splitChars_eq_single_empty (cs : List Char) (h : splitChars cs = [[]]) : cs = [] := by
  cases cs with
  | nil => rfl
  | cons c cs =>
    exfalso
    unfold splitChars at h
    split at h
    · split at h <;> simp_all
    · split at h <;> simp_all

/-- Splitting a maximal digit run followed by a non-digit-headed
remainder. -/
theorem splitChars_digits_append (d b : List Char) (hd : d ≠ [])
    (hall : ∀ c ∈ d, c.isDigit = true)
    (hb : ∀ c, b.head? = some c → c.isDigit = false) :
    splitChars (d ++ b) = [] :: d :: splitChars b := by
  induction d with
  | nil => exact absurd rfl hd
  | cons c d' ih =>
    have hc : c.isDigit = true := hall c (by simp)
    cases d' with
    | nil =>
      simp only [List.cons_append, List.nil_append]
      cases b with
      | nil => exact splitChars_cons_digit_single c [] hc [] rfl
      | cons x b' =>
        have hx : x.isDigit = false := hb x rfl
        obtain ⟨nd, rest, hsc⟩ : ∃ nd rest, splitChars b' = nd :: rest :=
          List.exists_cons_of_ne_nil (splitChars_ne_nil b')
        have heq := splitChars_cons_nondigit x b' hx nd rest hsc
        rw [heq]
        exact splitChars_cons_digit_cons c (x :: b') hc x nd rest heq
    | cons c2 d'' =>
      have hstep := ih (by simp) (fun e he => hall e (by simp [he]))
      simp only [List.cons_append] at hstep ⊢
      exact splitChars_cons_digit_merge c ((c2 :: d'') ++ b) hc (c2 :: d'')
        (splitChars b) (by simpa using hstep)

/-- Splitting around one maximal embedded digit run: with a non-digit (or
absent) character on each side of `d`, the pieces of `a ++ d ++ b` are
the pieces of `a`, then the run `d`, then the pieces of `b`. -/
theorem splitChars_append_split (d b : List Char) (hd : d ≠ [])
    (hall : ∀ c ∈ d, c.isDigit = true)
    (hb : ∀ c, b.head? = some c → c.isDigit = false) :
    ∀ a : List Char, (∀ c, a.getLast? = some c → c.isDigit = false) →
      splitChars (a ++ d ++ b) = splitChars a ++ d :: splitChars b := by
  intro a
  induction a with
  | nil =>
    intro _
    simpa using splitChars_digits_append d b hd hall hb
  | cons x a' ih =>
    intro ha
    cases a' with
    | nil =>
      have hx : x.isDigit = false := ha x rfl
      have hstep := splitChars_digits_append d b hd hall hb
      simp only [List.cons_append, List.nil_append] at *
      rw [splitChars_cons_nondigit x (d ++ b) hx [] (d :: splitChars b) hstep]
      rw [splitChars_cons_nondigit x [] hx [] [] rfl]
      rfl
    | cons y a'' =>
      have hlast : ∀ c, (y :: a'').getLast? = some c → c.isDigit = false := by
        intro c hc
        exact ha c (by rwa [List.getLast?_cons_cons])
      have hih := ih hlast
      obtain ⟨q0, r0, hq⟩ : ∃ q0 r0, splitChars (y :: a'') = q0 :: r0 :=
        List.exists_cons_of_ne_nil (splitChars_ne_nil _)
      by_cases hx : x.isDigit = true
      · cases q0 with
        | nil =>
          cases r0 with
          | nil =>
            exact absurd (splitChars_eq_single_empty _ hq) (by simp)
          | cons d0 r1 =>
            have hm1 := splitChars_cons_digit_merge x (y :: a'') hx d0 r1 hq
            have hm2 := splitChars_cons_digit_merge x ((y :: a'') ++ d ++ b) hx d0
              (r1 ++ d :: splitChars b) (by rw [hih, hq]; rfl)
            simp only [List.cons_append] at hm2 ⊢
            rw [hm2, hm1]
            rfl
        | cons z q' =>
          have hm1 := splitChars_cons_digit_cons x (y :: a'') hx z q' r0 hq
          have hm2 := splitChars_cons_digit_cons x ((y :: a'') ++ d ++ b) hx z q'
            (r0 ++ d :: splitChars b) (by rw [hih, hq]; rfl)
          simp only [List.cons_append] at hm2 ⊢
          rw [hm2, hm1]
          rfl
      · have hx' : x.isDigit = false := by simpa using hx
        have hm1 := splitChars_cons_nondigit x (y :: a'') hx' q0 r0 hq
        have hm2 := splitChars_cons_nondigit x ((y :: a'') ++ d ++ b) hx' q0
          (r0 ++ d :: splitChars b) (by rw [hih, hq]; rfl)
        simp only [List.cons_append] at hm2 ⊢
        rw [hm2, hm1]
        rfl

/-- `Char.ofNat` of a valid scalar value keeps the value. -/
theorem toNat_ofNat_valid (n : Nat) (h : n < 55296) : (Char.ofNat n).toNat = n := by
  rw [Char.ofNat, dif_pos (Or.inl h : Nat.isValidChar n)]
  simp [Char.ofNatAux, Char.toNat, UInt32.toNat]

/-- `Char.isDigit` in terms of the scalar value. -/
theorem isDigit_iff_toNat (c : Char) : c.isDigit = true ↔ 48 ≤ c.toNat ∧ c.toNat ≤ 57 := by
  simp [Char.isDigit, UInt32.le_def, Char.toNat, UInt32.toNat, BitVec.le_def]

/-- Lowercasing never turns a character into or out of a digit. -/
theorem isDigit_toLower (c : Char) : (Char.toLower c).isDigit = c.isDigit := by
  unfold Char.toLower
  by_cases h : Char.toNat c ≥ 65 ∧ Char.toNat c ≤ 90
  · rw [if_pos h]
    have ht : (Char.ofNat (c.toNat + 32)).toNat = c.toNat + 32 :=
      toNat_ofNat_valid _ (by omega)
    have h1 : (Char.ofNat (c.toNat + 32)).isDigit = false := by
      cases hd : (Char.ofNat (c.toNat + 32)).isDigit
      · rfl
      · have := (isDigit_iff_toNat _).mp hd
        rw [ht] at this
        omega
    have h2 : c.isDigit = false := by
      cases hd : c.isDigit
      · rfl
      · have := (isDigit_iff_toNat _).mp hd
        omega
    rw [h1, h2]
  · rw [if_neg h]

/-- Lowercasing leaves digits unchanged. -/
theorem toLower_digit (c : Char) (h : c.isDigit = true) : c.toLower = c := by
  unfold Char.toLower
  have := (isDigit_iff_toNat c).mp h
  rw [if_neg (by omega)]

/-- Lowercasing is idempotent. -/
theorem toLower_idem (c : Char) : c.toLower.toLower = c.toLower := by
  by_cases h : Char.toNat c ≥ 65 ∧ Char.toNat c ≤ 90
  · have ht : (c.toLower).toNat = c.toNat + 32 := by
      unfold Char.toLower
      rw [if_pos h]
      exact toNat_ofNat_valid _ (by omega)
    conv_lhs => rw [Char.toLower]
    rw [if_neg (by rw [ht]; omega)]
  · have he : c.toLower = c := by
      unfold Char.toLower
      rw [if_neg h]
    rw [he, he]

/-- Splitting commutes with lowercasing, because lowercasing preserves
digit-hood. -/
theorem splitChars_map_toLower (cs : List Char) :
    splitChars (cs.map Char.toLower) = (splitChars cs).map (fun p => p.map Char.toLower) := by
  induction cs with
  | nil => rfl
  | cons c cs ih =>
    obtain ⟨q0, r0, hq⟩ : ∃ q0 r0, splitChars cs = q0 :: r0 :=
      List.exists_cons_of_ne_nil (splitChars_ne_nil cs)
    rw [hq] at ih
    simp only [List.map_cons] at ih ⊢
    by_cases hc : c.isDigit = true
    · have hcl : (Char.toLower c).isDigit = true := by rw [isDigit_toLower]; exact hc
      cases q0 with
      | nil =>
        cases r0 with
        | nil =>
          have hnil : cs = [] := splitChars_eq_single_empty _ hq
          subst hnil
          simp only [List.map_nil]
          rw [splitChars_cons_digit_single (Char.toLower c) [] hcl [] rfl,
              splitChars_cons_digit_single c [] hc [] rfl]
          rfl
        | cons d0 r1 =>
          rw [splitChars_cons_digit_merge (Char.toLower c) (cs.map Char.toLower) hcl
                (d0.map Char.toLower) (r1.map (fun p => p.map Char.toLower)) (by simpa using ih),
              splitChars_cons_digit_merge c cs hc d0 r1 hq]
          rfl
      | cons z q' =>
        rw [splitChars_cons_digit_cons (Char.toLower c) (cs.map Char.toLower) hcl
              (Char.toLower z) (q'.map Char.toLower) (r0.map (fun p => p.map Char.toLower))
              (by simpa using ih),
            splitChars_cons_digit_cons c cs hc z q' r0 hq]
        rfl
    · have hc' : c.isDigit = false := by simpa using hc
      have hcl : (Char.toLower c).isDigit = false := by rw [isDigit_toLower]; exact hc'
      rw [splitChars_cons_nondigit (Char.toLower c) (cs.map Char.toLower) hcl
            (q0.map Char.toLower) (r0.map (fun p => p.map Char.toLower)) (by simpa using ih),
          splitChars_cons_nondigit c cs hc' q0 r0 hq]
      rfl

/-- The key piece of a lowercased piece equals the key piece of the
original piece. -/
theorem pieceOf_map_toLower (p : List Char) : pieceOf (p.map Char.toLower) = pieceOf p := by
  by_cases h : p ≠ [] ∧ p.all Char.isDigit
  · have hmap : p.map Char.toLower = p := by
      have hdig : ∀ x ∈ p, Char.toLower x = x := by
        intro x hx
        refine toLower_digit x ?_
        have := h.2
        rw [List.all_eq_true] at this
        exact this x hx
      rw [List.map_congr_left hdig]
      simp
    rw [hmap]
  · rw [pieceOf, if_neg, pieceOf, if_neg h]
    · rw [List.map_map]
      congr 1
      apply List.map_congr_left
      intro c _
      exact toLower_idem c
    · intro hcon
      apply h
      refine ⟨by simpa using hcon.1, ?_⟩
      have := hcon.2
      rw [List.all_map] at this
      simpa [Function.comp, isDigit_toLower] using this

/-- The key piece of a nonempty all-digit run is its numeric value. -/
theorem pieceOf_digits (d : List Char) (hne : d ≠ []) (hall : ∀ c ∈ d, c.isDigit = true) :
    pieceOf d = .num (digitsVal d) := by
  rw [pieceOf, if_pos ⟨hne, by rw [List.all_eq_true]; exact hall⟩]

/-- Keys with a common prefix compare by the first differing element;
for numeric elements that is numeric comparison. -/
theorem keyLt_append_num (P S1 S2 : List Piece) (v1 v2 : Nat) (h : v1 < v2) :
    keyLt (P ++ .num v1 :: S1) (P ++ .num v2 :: S2) = true := by
  induction P with
  | nil =>
    have hne : (Piece.num v1) ≠ (Piece.num v2) := by
      intro he
      cases he
      omega
    simp only [List.nil_append, keyLt, if_neg hne, pieceLt]
    simpa using h
  | cons p P ih =>
    simpa [keyLt] using ih

/-- `natural_sort_key` on an explicitly given character list. -/
theorem natural_sort_key_mk (cs : List Char) :
    natural_sort_key (String.mk cs) = (splitChars cs).map pieceOf := rfl

end NaturalSort

open NaturalSort in
/-- C8: `natural_sort_key` implements natural-sort ordering.  First
conjunct: two filenames identical except for one embedded (maximal) run
of decimal digits are ordered by the numeric value of that run — e.g.
`image2` before `image10`.  Second conjunct: lowercasing a filename does
not change its key at all, so letter-case differences in non-digit
segments never affect the ordering. -/
theorem natural_sort_key_natural_order :
    (∀ a b d1 d2 : List Char,
      d1 ≠ [] → (∀ c ∈ d1, c.isDigit = true) →
      d2 ≠ [] → (∀ c ∈ d2, c.isDigit = true) →
      (∀ c, a.getLast? = some c → c.isDigit = false) →
      (∀ c, b.head? = some c → c.isDigit = false) →
      digitsVal d1 < digitsVal d2 →
      keyLt (natural_sort_key (String.mk (a ++ d1 ++ b)))
            (natural_sort_key (String.mk (a ++ d2 ++ b))) = true) ∧
    (∀ s : String, natural_sort_key (String.mk (s.toList.map Char.toLower)) =
      natural_sort_key s) := by
  constructor
  · intro a b d1 d2 h1ne h1all h2ne h2all ha hb hval
    have hs1 := splitChars_append_split d1 b h1ne h1all hb a ha
    have hs2 := splitChars_append_split d2 b h2ne h2all hb a ha
    rw [natural_sort_key_mk, natural_sort_key_mk, hs1, hs2, List.map_append,
      List.map_append, List.map_cons, List.map_cons, pieceOf_digits d1 h1ne h1all,
      pieceOf_digits d2 h2ne h2all]
    exact keyLt_append_num _ _ _ _ _ hval
  · intro s
    rw [natural_sort_key_mk, splitChars_map_toLower, List.map_map]
    show (splitChars s.toList).map (fun p => pieceOf (p.map Char.toLower)) = _
    rw [List.map_congr_left (fun p _ => pieceOf_map_toLower p)]
    rfl

open NaturalSort in
/-- Witness for `natural_sort_key_natural_order`: `image2` sorts before
`image10`, and lowercasing `IMAGE2` leaves its key unchanged. -/
theorem natural_sort_key_natural_order_witness :
    keyLt (natural_sort_key (String.mk (['i', 'm', 'a', 'g', 'e'] ++ ['2'] ++ [])))
          (natural_sort_key (String.mk (['i', 'm', 'a', 'g', 'e'] ++ ['1', '0'] ++ []))) =
      true ∧
    natural_sort_key (String.mk ("IMAGE2".toList.map Char.toLower)) =
      natural_sort_key "IMAGE2" :=
  ⟨natural_sort_key_natural_order.1 ['i', 'm', 'a', 'g', 'e'] [] ['2'] ['1', '0']
      (by simp) (by decide) (by simp) (by decide) (by decide) (by simp) (by decide),
    natural_sort_key_natural_order.2 "IMAGE2"⟩

end RagWorkflow
